import Mathlib

/-!
Shallow embedding of the GitLab-to-GitHub migration tool
(`gitlab2github.py`) and proofs about its migration logic.

The embedding models the pure decision logic of the tool: configuration,
repository provisioning, description sanitization, history transport
control flow, issue migration with deduplication, and merge-request
migration with the branch guard.  External API calls are modelled as
explicit state (lists of destination issues, labels, pull requests,
branches) and, where a claim is about call patterns, as an explicit
trace of calls.  Outcomes of external subprocess/API calls that can fail
are supplied as oracle parameters so that exception control flow can be
stated faithfully.
-/

namespace Gitlab2Github

/-- Embedding of the `MigrationConfig` dataclass (gitlab2github.py lines
37-51): endpoints, credentials, per-entity enable flags, optional target
repository filter and the force-private flag. -/
structure MigrationConfig where
  gitlab_url : String
  gitlab_token : String
  gitlab_group_id : String
  github_token : String
  github_org : String
  migrate_issues : Bool
  migrate_merge_requests : Bool
  migrate_wiki : Bool
  migrate_labels : Bool
  migrate_milestones : Bool
  target_repo : Option String
  force_private : Bool
deriving DecidableEq

/-- Embedding of the `repo_info` dictionaries built by
`get_gitlab_repositories` / `get_specific_repository` (lines 76-85):
the GitLab project descriptor consumed by the provisioner and the
history transporter.  `description` is `Option` since the GitLab API
may return `None`. -/
structure RepoInfo where
  id : Nat
  name : String
  path : String
  description : Option String
  visibility : String
  web_url : String
  ssh_url_to_repo : String
  http_url_to_repo : String
deriving DecidableEq

/-- Destination-side repository metadata as held by the GitHub
organization: name, description, private flag and clone URL.  Models the
repository objects returned by `github_org.get_repo` /
`github_org.create_repo`. -/
structure GHRepoMeta where
  name : String
  description : String
  is_private : Bool
  clone_url : String
deriving DecidableEq

/-- Embedding of `sanitize_description` (lines 123-128): a falsy
description (`None` or the empty string) yields `''`; otherwise
`re.sub(r'[\x00-\x1F\x7F]', '', description)` deletes exactly the
characters of that class and keeps every other character in order.
Python `str` operates on code points, modelled here as `Char`. -/
def sanitize_description (description : Option String) : String :=
  match description with
  | none => ""
  | some s =>
    if s = "" then ""
    else String.mk (s.data.filter (fun c => !(c.toNat ≤ 0x1F || c.toNat == 0x7F)))

/-- Spec-side restatement of description sanitization, written from the
spec's words: strip the ASCII control characters 0x00-0x1F and 0x7F,
preserve every other character in order, and map an absent (None or
empty) description to the empty string. -/
def sanitize_description_spec (description : Option String) : String :=
  match description with
  | none => ""
  | some s => String.mk (s.data.filter (fun c => !(c.toNat ≤ 0x1F || c.toNat == 0x7F)))

/-- Embedding of the visibility decision in `create_github_repository`
(lines 143-147): `force_private` forces `private`; otherwise source
visibility `private` maps to `private` and anything else to `public`. -/
def resolve_visibility (force_private : Bool) (src_visibility : String) : String :=
  if force_private then "private"
  else if src_visibility = "private" then "private" else "public"

/-- Clone URL the GitHub API reports for a repository of the
organization; the API derives it canonically from organization and
repository names. -/
def github_clone_url (org : String) (name : String) : String :=
  "https://github.com/" ++ org ++ "/" ++ name ++ ".git"

/-- Embedding of `create_github_repository` (lines 130-164).  The GitHub
organization is the list of its repositories; `get_repo` is lookup by
name.  If the repository already exists the function warns and returns
its clone URL, touching nothing.  Otherwise it creates a repository
with resolved visibility and sanitized description; `create_fails` is
the oracle for a raising `create_repo` call, in which case the
exception handler returns `None`. -/
def create_github_repository (cfg : MigrationConfig) (org_repos : List GHRepoMeta)
    (repo_info : RepoInfo) (create_fails : Bool) : Option String × List GHRepoMeta :=
  match org_repos.find? (fun r => r.name == repo_info.name) with
  | some existing_repo => (some existing_repo.clone_url, org_repos)
  | none =>
    if create_fails then (none, org_repos)
    else
      let visibility := resolve_visibility cfg.force_private repo_info.visibility
      let safe_description := sanitize_description repo_info.description
      let repo : GHRepoMeta :=
        { name := repo_info.name
          description := safe_description
          is_private := visibility == "private"
          clone_url := github_clone_url cfg.github_org repo_info.name }
      (some repo.clone_url, org_repos ++ [repo])

/-- Behavior of one `subprocess.run` call in `migrate_git_repository`:
it either completes, raises an `Exception` (caught by the
`except Exception` handler), or is cut short by an external interrupt
(`KeyboardInterrupt`, a `BaseException` the handler does not catch). -/
inductive SubprocBehavior
  | ok
  | raiseExc
  | interrupt
deriving DecidableEq

/-- Result of `migrate_git_repository`: `result = some b` when the
function returns `b`, `result = none` when an uncaught interrupt
propagates out of it; `temp_dir_exists` records whether the transient
clone directory `_tmp_migrate_<name>` is still on disk afterwards. -/
structure GitMigrationResult where
  result : Option Bool
  temp_dir_exists : Bool
deriving DecidableEq

/-- Embedding of `migrate_git_repository` (lines 222-242).  The three
guarded subprocess steps are clone, remote set-url and push, each with
an oracle behavior.  The clone attempt creates the transient directory;
a raised `Exception` reaches the handler, which runs `rm -rf` and
returns `False`; the success path runs `rm -rf` and returns `True`; an
interrupt is not caught by `except Exception`, so no cleanup runs and
the directory is left behind. -/
def migrate_git_repository (clone_behavior set_url_behavior push_behavior : SubprocBehavior) :
    GitMigrationResult :=
  match clone_behavior with
  | .interrupt => { result := none, temp_dir_exists := true }
  | .raiseExc => { result := some false, temp_dir_exists := false }
  | .ok =>
    match set_url_behavior with
    | .interrupt => { result := none, temp_dir_exists := true }
    | .raiseExc => { result := some false, temp_dir_exists := false }
    | .ok =>
      match push_behavior with
      | .interrupt => { result := none, temp_dir_exists := true }
      | .raiseExc => { result := some false, temp_dir_exists := false }
      | .ok => { result := some true, temp_dir_exists := false }

/-- The sub-steps `migrate_repository` drives, in source order. -/
inductive MigPhase
  | provision
  | transport
  | labels
  | milestones
  | issues
  | mergeRequests
deriving DecidableEq

/-- Embedding of the control flow of `migrate_repository` (lines
437-467).  `project_ok` is the oracle for the `gitlab.projects.get`
call (a raise lands in the outer handler, returning `False`);
`provision_result` is the value returned by `create_github_repository`;
`transport_ok` the value returned by `migrate_git_repository`.  The
sub-migrators catch all their exceptions internally, so once
provisioning succeeds every phase runs and the function returns `True`;
the transport result is bound and discarded (line 454). -/
def migrate_repository (project_ok : Bool) (provision_result : Option String)
    (transport_ok : Bool) : Bool × List MigPhase :=
  if project_ok then
    match provision_result with
    | none => (false, [MigPhase.provision])
    | some _ =>
      let _history_ok := transport_ok
      (true, [MigPhase.provision, MigPhase.transport, MigPhase.labels,
              MigPhase.milestones, MigPhase.issues, MigPhase.mergeRequests])
  else (false, [])

/-- Source-side merge request as the tool reads it from the GitLab API
(fields used by `migrate_merge_requests`, lines 352-435).  `labels` is
the list of label names after the object-vs-string normalization of
lines 385-389; `milestone_id` is `mr.milestone.id` when a milestone is
attached; `author_name` models `mr.author['name']` (absent attribute or
key yields the `'不明'` default); `web_url` models `getattr(mr,
'web_url', '')`. -/
structure SrcMergeRequest where
  iid : Nat
  title : String
  description : Option String
  state : String
  source_branch : String
  target_branch : String
  labels : List String
  milestone_id : Option Nat
  author_name : Option String
  web_url : Option String
  notes : List String
deriving DecidableEq

/-- Destination pull request as assembled by the happy path of
`migrate_merge_requests` (lines 398-424): creation fields plus the
effects of `add_to_labels`, `add_to_assignees`, comment creation and
the final state edit.  `assignees` holds the milestone numbers the code
passes to `add_to_assignees`; `milestone` is the pull request's proper
milestone field, which the code never sets. -/
structure GHPullRequest where
  title : String
  body : String
  head : String
  base : String
  state : String
  labels : List String
  assignees : List Nat
  milestone : Option Nat
  comments : List String
deriving DecidableEq

/-- Destination issue record as created on the skip path of
`migrate_merge_requests` (lines 367-380): title, body and state after
the immediate close. -/
structure GHIssueRecord where
  title : String
  body : String
  state : String
deriving DecidableEq

/-- GitHub API calls `migrate_merge_requests` issues, recorded as a
trace so call-pattern properties (how often the branch list is
fetched) can be stated. -/
inductive GitHubCall
  | getBranches
  | createPull
  | createIssue
  | editState
  | addLabels
  | addAssignees
  | createComment
deriving DecidableEq

/-- Accumulated output of `migrate_merge_requests`: pull requests
created, record-keeping issues created, and the trace of GitHub API
calls in order. -/
structure RequestMigrationOut where
  prs : List GHPullRequest
  issues : List GHIssueRecord
  calls : List GitHubCall
deriving DecidableEq

/-- Title of the record-keeping issue for a skipped merge request
(line 367). -/
def skip_issue_title (mr : SrcMergeRequest) : String :=
  "[移行スキップ] MR: " ++ mr.title ++ " (source: " ++ mr.source_branch ++
    ", target: " ++ mr.target_branch ++ ")"

/-- Body of the record-keeping issue for a skipped merge request (the
f-string of lines 368-378), documenting number, title, author, state,
both branch names and the original GitLab URL. -/
def skip_issue_body (mr : SrcMergeRequest) : String :=
  "\nこのMerge Requestは移行時にスキップされました。\n- GitLab MR番号: !" ++ toString mr.iid ++
  "\n- タイトル: " ++ mr.title ++
  "\n- 作成者: " ++ mr.author_name.getD "不明" ++
  "\n- 状態: " ++ mr.state ++
  "\n- ソースブランチ: " ++ mr.source_branch ++
  "\n- ターゲットブランチ: " ++ mr.target_branch ++
  "\n- 理由: GitHub上に該当ブランチが存在しないためPull Requestとして作成できませんでした。\n- 元GitLab URL: " ++
  mr.web_url.getD "" ++ "\n"

/-- One iteration of the `migrate_merge_requests` loop (lines 360-429).
The iteration first fetches the destination branch list (line 363,
hence the `getBranches` call in every branch of the trace).  If either
branch is missing it creates the closed record-keeping issue and moves
on; otherwise it creates the pull request, attaches labels, passes the
mapped milestone to `add_to_assignees` (line 412), copies non-blank
comments and closes the pull request when the source state is `merged`
or `closed`. -/
def migrate_merge_request_step (milestone_mapping : Nat → Option Nat)
    (branches : List String) (mr : SrcMergeRequest) : RequestMigrationOut :=
  if mr.source_branch ∉ branches ∨ mr.target_branch ∉ branches then
    { prs := []
      issues := [{ title := skip_issue_title mr, body := skip_issue_body mr, state := "closed" }]
      calls := [GitHubCall.getBranches, GitHubCall.createIssue, GitHubCall.editState] }
  else
    let labels := mr.labels
    let milestone : Option Nat :=
      match mr.milestone_id with
      | some mid =>
        match milestone_mapping mid with
        | some n => if n ≠ 0 then some n else none
        | none => none
      | none => none
    let comments := mr.notes.filter (fun s => s.trim ≠ "")
    let pr : GHPullRequest :=
      { title := mr.title, body := mr.description.getD "", head := mr.source_branch
        base := mr.target_branch, state := "open", labels := []
        assignees := [], milestone := none, comments := [] }
    let pr := if labels ≠ [] then { pr with labels := labels } else pr
    let pr := match milestone with
      | some n => { pr with assignees := pr.assignees ++ [n] }
      | none => pr
    let pr := { pr with comments := comments }
    let pr := if mr.state = "merged" ∨ mr.state = "closed" then { pr with state := "closed" } else pr
    { prs := [pr]
      issues := []
      calls := [GitHubCall.getBranches, GitHubCall.createPull] ++
        (if labels ≠ [] then [GitHubCall.addLabels] else []) ++
        (match milestone with | some _ => [GitHubCall.addAssignees] | none => []) ++
        comments.map (fun _ => GitHubCall.createComment) ++
        (if mr.state = "merged" ∨ mr.state = "closed" then [GitHubCall.editState] else []) }

/-- Concatenation of two request-migration outputs (the loop appends
each iteration's creations and calls). -/
def RequestMigrationOut.append (a b : RequestMigrationOut) : RequestMigrationOut :=
  { prs := a.prs ++ b.prs, issues := a.issues ++ b.issues, calls := a.calls ++ b.calls }

/-- Embedding of `migrate_merge_requests` (lines 352-435): nothing
happens when the config flag is off; otherwise every source merge
request is processed in order by `migrate_merge_request_step` and the
outputs accumulate. -/
def migrate_merge_requests (cfg : MigrationConfig) (milestone_mapping : Nat → Option Nat)
    (branches : List String) (merge_requests : List SrcMergeRequest) : RequestMigrationOut :=
  if cfg.migrate_merge_requests then
    merge_requests.foldl
      (fun acc mr => acc.append (migrate_merge_request_step milestone_mapping branches mr))
      { prs := [], issues := [], calls := [] }
  else { prs := [], issues := [], calls := [] }

/-- Source-side issue as the tool reads it from the GitLab API (fields
used by `migrate_issues`, lines 244-350).  `labels` is the list of
label names after the object-vs-string normalization of lines 268-274;
`milestone_id` is `issue.milestone.id` when a milestone is attached. -/
structure SrcIssue where
  iid : Nat
  title : String
  description : Option String
  state : String
  labels : List String
  milestone_id : Option Nat
  notes : List String
deriving DecidableEq

/-- GitLab label metadata cached in `gitlab_label_dict` (line 262). -/
structure GitLabLabel where
  name : String
  color : String
  description : Option String
deriving DecidableEq

/-- Destination label as created by `github_repo.create_label`. -/
structure GHLabel where
  name : String
  color : String
  description : String
deriving DecidableEq

/-- Destination issue as assembled by `migrate_issues` (lines 309-333):
creation fields plus the attached comments and the final state edit. -/
structure GHIssue where
  title : String
  body : String
  state : String
  labels : List String
  milestone : Option Nat
  comments : List String
deriving DecidableEq

/-- The destination repository state `migrate_issues` reads and writes:
its issues (in creation order) and its labels. -/
structure GHIssuesRepo where
  issues : List GHIssue
  labels : List GHLabel
deriving DecidableEq

/-- Python's `str.lstrip('#')`: drop every leading `#`. -/
def strip_hash (s : String) : String :=
  String.mk (s.data.dropWhile (fun c => c == '#'))

/-- Normalization of a source issue state to the two destination states
(line 304): `closed` stays `closed`, anything else becomes `open`. -/
def normalized_state (state : String) : String :=
  if state = "closed" then "closed" else "open"

/-- Dedup key of a source issue: title and normalized state (lines
303-305). -/
def issue_dedup_key (issue : SrcIssue) : String × String :=
  (issue.title, normalized_state issue.state)

/-- Dedup keys of a list of destination issues: title and state of each
(lines 254-257). -/
def keys_of (issues : List GHIssue) : List (String × String) :=
  issues.map (fun ei => (ei.title, ei.state))

/-- The pre-pass of `migrate_issues` (lines 252-257): the dedup keys of
all existing destination issues, open and closed, fetched once per
repository before the loop. -/
def existing_issue_keys (repo : GHIssuesRepo) : List (String × String) :=
  keys_of repo.issues

/-- The auto-label-creation block of the issue loop (lines 266-291):
walk the issue's label names; a name already present at the destination
is kept as-is, a missing one is first created with the GitLab color
(leading `#` stripped, default `ededed` when empty) and description
(default empty), refreshing the destination name cache.  Returns the
updated repository and the label-name list attached to the issue. -/
def auto_create_labels (gitlab_label_dict : List GitLabLabel) (repo : GHIssuesRepo) :
    List String → GHIssuesRepo × List String
  | [] => (repo, [])
  | name :: rest =>
    if name ∈ repo.labels.map GHLabel.name then
      let r := auto_create_labels gitlab_label_dict repo rest
      (r.1, name :: r.2)
    else
      let cd :=
        match gitlab_label_dict.find? (fun l => l.name == name) with
        | some gl_label =>
          (if gl_label.color = "" then "ededed" else strip_hash gl_label.color,
            gl_label.description.getD "")
        | none => ("ededed", "")
      let repo' : GHIssuesRepo :=
        { repo with labels := repo.labels ++ [{ name := name, color := cd.1, description := cd.2 }] }
      let r := auto_create_labels gitlab_label_dict repo' rest
      (r.1, name :: r.2)

/-- Outcome of one iteration of the issue loop: skipped by the dedup
check, migrated, or failed because `create_issue` raised (the raise is
caught by the per-issue handler of lines 340-347, or for an
`AssertionError` by lines 321-323; both continue the loop). -/
inductive IssueOutcome
  | skipped
  | migrated
  | failed
deriving DecidableEq

/-- The milestone resolution of lines 293-298: a milestone reference is
carried over when the milestone mapping has a truthy (non-zero) entry
for its id. -/
def resolve_milestone (milestone_mapping : Nat → Option Nat) : Option Nat → Option Nat
  | some mid =>
    match milestone_mapping mid with
    | some n => if n ≠ 0 then some n else none
    | none => none
  | none => none

/-- The destination issue a surviving iteration creates (lines 309-333):
title, defaulted body, labels resolved by the auto-creation block,
mapped milestone, the non-blank comments, created `open` and closed
afterwards when the source state is `closed`. -/
def created_issue (milestone_mapping : Nat → Option Nat)
    (gitlab_label_dict : List GitLabLabel) (repo : GHIssuesRepo) (issue : SrcIssue) : GHIssue :=
  let gh_issue : GHIssue :=
    { title := issue.title, body := issue.description.getD "", state := "open"
      labels := (auto_create_labels gitlab_label_dict repo issue.labels).2
      milestone := resolve_milestone milestone_mapping issue.milestone_id
      comments := issue.notes.filter (fun n => n.trim ≠ "") }
  if issue.state = "closed" then { gh_issue with state := "closed" } else gh_issue

/-- One iteration of the `migrate_issues` loop (lines 264-347): run the
label auto-creation block, then apply the dedup check against the fixed
pre-pass keys; a surviving issue is created by `created_issue` unless
`create_raises` says the `create_issue` call raises (the raise is
caught by the per-issue handler and the loop continues). -/
def migrate_issue_step (milestone_mapping : Nat → Option Nat)
    (gitlab_label_dict : List GitLabLabel) (keys : List (String × String))
    (create_raises : Bool) (repo : GHIssuesRepo) (issue : SrcIssue) :
    GHIssuesRepo × IssueOutcome :=
  let repo1 := (auto_create_labels gitlab_label_dict repo issue.labels).1
  let issue_state := normalized_state issue.state
  if (issue.title, issue_state) ∈ keys then (repo1, IssueOutcome.skipped)
  else if create_raises then (repo1, IssueOutcome.failed)
  else
    ({ repo1 with issues := repo1.issues ++
        [created_issue milestone_mapping gitlab_label_dict repo issue] }, IssueOutcome.migrated)

/-- The `migrate_issues` loop over the source issues, threading the
destination repository state and the loop index (used only to address
the per-iteration `create_raises` oracle) and collecting each issue's
iid and outcome in order. -/
def migrate_issues_loop (milestone_mapping : Nat → Option Nat)
    (gitlab_label_dict : List GitLabLabel) (keys : List (String × String))
    (create_raises : Nat → Bool) :
    Nat → GHIssuesRepo → List SrcIssue → GHIssuesRepo × List (Nat × IssueOutcome)
  | _, repo, [] => (repo, [])
  | idx, repo, issue :: rest =>
    let s := migrate_issue_step milestone_mapping gitlab_label_dict keys (create_raises idx) repo issue
    let r := migrate_issues_loop milestone_mapping gitlab_label_dict keys create_raises (idx + 1) s.1 rest
    (r.1, (issue.iid, s.2) :: r.2)

/-- Embedding of `migrate_issues` (lines 244-350): nothing happens when
the config flag is off; otherwise the dedup keys of the existing
destination issues are computed once as a pre-pass and the loop runs
over all source issues with those fixed keys. -/
def migrate_issues (cfg : MigrationConfig) (milestone_mapping : Nat → Option Nat)
    (gitlab_label_dict : List GitLabLabel) (create_raises : Nat → Bool)
    (issues : List SrcIssue) (repo : GHIssuesRepo) :
    GHIssuesRepo × List (Nat × IssueOutcome) :=
  if cfg.migrate_issues then
    migrate_issues_loop milestone_mapping gitlab_label_dict (existing_issue_keys repo)
      create_raises 0 repo issues
  else (repo, [])

/-- Number of destination issues whose dedup key is `k`. -/
def count_key (issues : List GHIssue) (k : String × String) : Nat :=
  (issues.filter (fun i => decide ((i.title, i.state) = k))).length

/-- Outcome of one loop iteration, expressed on the inputs that
determine it: the fixed pre-pass keys, the oracle bit and the issue.
Used to characterize the outcome list of `migrate_issues_loop`. -/
def outcome_of (keys : List (String × String)) (raises : Bool) (issue : SrcIssue) : IssueOutcome :=
  if issue_dedup_key issue ∈ keys then IssueOutcome.skipped
  else if raises then IssueOutcome.failed
  else IssueOutcome.migrated

/-- Outcome list of the loop, expressed without the repository state. -/
def outcomes_of (keys : List (String × String)) (create_raises : Nat → Bool) :
    Nat → List SrcIssue → List (Nat × IssueOutcome)
  | _, [] => []
  | idx, issue :: rest =>
    (issue.iid, outcome_of keys (create_raises idx) issue) :: outcomes_of keys create_raises (idx + 1) rest

/-- Concrete configuration with every migration flag enabled, used to
evaluate the migrators on concrete inputs. -/
def cfg_all : MigrationConfig :=
  { gitlab_url := "https://gitlab.example", gitlab_token := "glt", gitlab_group_id := "42"
    github_token := "ght", github_org := "acme"
    migrate_issues := true, migrate_merge_requests := true, migrate_wiki := true
    migrate_labels := true, migrate_milestones := true
    target_repo := none, force_private := false }

/-- Concrete merge request carrying a milestone whose id is mapped. -/
def mr_with_milestone : SrcMergeRequest :=
  { iid := 1, title := "Add feature", description := some "the body", state := "opened"
    source_branch := "feature-x", target_branch := "main", labels := []
    milestone_id := some 5, author_name := some "alice"
    web_url := some "https://gitlab.example/mr/1", notes := [] }

/-- Concrete merge request whose source branch is absent downstream. -/
def mr_missing_branch_a : SrcMergeRequest :=
  { iid := 1, title := "First", description := none, state := "opened"
    source_branch := "feature-x", target_branch := "main", labels := []
    milestone_id := none, author_name := some "alice"
    web_url := some "https://gitlab.example/mr/1", notes := [] }

/-- Second concrete merge request whose source branch is absent
downstream. -/
def mr_missing_branch_b : SrcMergeRequest :=
  { iid := 2, title := "Second", description := none, state := "opened"
    source_branch := "feature-y", target_branch := "main", labels := []
    milestone_id := none, author_name := none
    web_url := none, notes := [] }

/-- Concrete source issue. -/
def issue_a : SrcIssue :=
  { iid := 11, title := "Crash on save", description := some "details", state := "opened"
    labels := [], milestone_id := none, notes := [] }

/-- Concrete source issue sharing title and normalized state with
`issue_a` but with a distinct iid. -/
def issue_b : SrcIssue :=
  { iid := 12, title := "Crash on save", description := none, state := "opened"
    labels := [], milestone_id := none, notes := [] }

/-- Concrete empty destination repository state. -/
def empty_gh_repo : GHIssuesRepo := { issues := [], labels := [] }

/-- Concrete destination repository metadata used as a pre-existing
repository of the organization. -/
def existing_meta : GHRepoMeta :=
  { name := "legacy", description := "old description", is_private := true
    clone_url := "https://github.com/acme/legacy.git" }

/-- Concrete GitLab repository descriptor with the same name as
`existing_meta`. -/
def repo_info_legacy : RepoInfo :=
  { id := 7, name := "legacy", path := "legacy", description := some "new description"
    visibility := "internal", web_url := "https://gitlab.example/g/legacy"
    ssh_url_to_repo := "git@gitlab.example:g/legacy.git"
    http_url_to_repo := "https://gitlab.example/g/legacy.git" }

/-- C7: the description used to create the destination repository is the
source description with exactly the ASCII control characters 0x00-0x1F
and 0x7F removed and every other character preserved in order; an
absent (None or empty) description yields the empty string.  The
source-side `sanitize_description` agrees with the spec-side filter on
every input, and the bell byte of the spec's example is removed. -/
theorem sanitize_description_correct :
    (∀ d, sanitize_description d = sanitize_description_spec d) ∧
    sanitize_description (some "a\x07b") = "ab" ∧
    sanitize_description none = "" ∧
    sanitize_description (some "") = "" := by
  refine ⟨fun d => ?_, by decide, rfl, by decide⟩
  cases d with
  | none => rfl
  | some s =>
    by_cases h : s = ""
    · subst h; rfl
    · simp [sanitize_description, sanitize_description_spec, h]

/-- C6: when `force_private` is set the created repository is private
regardless of source visibility; otherwise source visibility `private`
maps to private and any other source visibility (for example
`internal`) maps to public; repository creation records exactly this
resolved visibility. -/
theorem visibility_resolution :
    (∀ v, resolve_visibility true v = "private") ∧
    resolve_visibility false "private" = "private" ∧
    (∀ v, v ≠ "private" → resolve_visibility false v = "public") ∧
    resolve_visibility false "internal" = "public" ∧
    (∀ cfg repo_info,
      ((create_github_repository cfg [] repo_info false).2.map GHRepoMeta.is_private)
        = [resolve_visibility cfg.force_private repo_info.visibility == "private"]) := by
  refine ⟨fun v => rfl, rfl, fun v hv => ?_, by decide, fun cfg repo_info => ?_⟩
  · simp [resolve_visibility, hv]
  · simp [create_github_repository]

/-- Witness for `visibility_resolution`: the hypothesis of the third
conjunct discharged at source visibility `internal`. -/
theorem visibility_resolution_witness :
    resolve_visibility false "internal" = "public" :=
  visibility_resolution.2.2.1 "internal" (by decide)

/-- C9: when a destination repository with the requested name already
exists, `create_github_repository` returns that repository's clone URL
and leaves the organization's repositories — descriptions, visibility
and all other metadata — completely unchanged, for every configuration
(including `force_private`). -/
theorem create_github_repository_existing_frame
    (cfg : MigrationConfig) (org_repos : List GHRepoMeta) (repo_info : RepoInfo)
    (create_fails : Bool) (r : GHRepoMeta)
    (h : org_repos.find? (fun x => x.name == repo_info.name) = some r) :
    create_github_repository cfg org_repos repo_info create_fails
      = (some r.clone_url, org_repos) := by
  simp [create_github_repository, h]

/-- Witness for `create_github_repository_existing_frame`: a concrete
organization holding `existing_meta` is untouched by provisioning a
descriptor of the same name, even under `force_private`. -/
theorem create_github_repository_existing_frame_witness :
    create_github_repository { cfg_all with force_private := true } [existing_meta]
      repo_info_legacy false = (some existing_meta.clone_url, [existing_meta]) :=
  create_github_repository_existing_frame _ _ _ _ _ (by decide)

/-- C4 counterexample: an external interrupt during the push step is not
caught by the `except Exception` handler of `migrate_git_repository`,
so the transient clone directory is left on disk — the claim that the
directory is removed on every exit path, interrupts included, fails at
this input. -/
theorem migrate_git_repository_interrupt_leaves_dir :
    (migrate_git_repository SubprocBehavior.ok SubprocBehavior.ok SubprocBehavior.interrupt).temp_dir_exists = true ∧
    ¬ (migrate_git_repository SubprocBehavior.ok SubprocBehavior.ok SubprocBehavior.interrupt).temp_dir_exists = false := by
  decide

/-- C4 amended: on every exit path on which `migrate_git_repository`
returns — the success path and the path of a caught failure — the
transient clone directory has been removed; only an uncaught external
interrupt leaves it behind. -/
theorem migrate_git_repository_cleanup
    (clone_behavior set_url_behavior push_behavior : SubprocBehavior) (b : Bool)
    (h : (migrate_git_repository clone_behavior set_url_behavior push_behavior).result = some b) :
    (migrate_git_repository clone_behavior set_url_behavior push_behavior).temp_dir_exists = false := by
  cases clone_behavior <;> cases set_url_behavior <;> cases push_behavior <;>
    simp_all [migrate_git_repository]

/-- Witness for `migrate_git_repository_cleanup`: the all-success run
returns `true` and the directory is gone. -/
theorem migrate_git_repository_cleanup_witness :
    (migrate_git_repository SubprocBehavior.ok SubprocBehavior.ok SubprocBehavior.ok).temp_dir_exists = false :=
  migrate_git_repository_cleanup SubprocBehavior.ok SubprocBehavior.ok SubprocBehavior.ok true (by decide)

/-- C5: a failed history transport does not abort the repository's
metadata migration — with provisioning succeeded and the transporter
reporting failure, the label, milestone, issue and merge-request phases
all still run, the repository is reported migrated, and the whole
outcome is identical to the outcome with a successful transport. -/
theorem migrate_repository_transport_failure_isolated (u : String) :
    (migrate_repository true (some u) false).1 = true ∧
    MigPhase.labels ∈ (migrate_repository true (some u) false).2 ∧
    MigPhase.milestones ∈ (migrate_repository true (some u) false).2 ∧
    MigPhase.issues ∈ (migrate_repository true (some u) false).2 ∧
    MigPhase.mergeRequests ∈ (migrate_repository true (some u) false).2 ∧
    migrate_repository true (some u) false = migrate_repository true (some u) true := by
  simp [migrate_repository]

/-- C2 evaluation at the failing input: for a merge request whose
milestone is mapped (id 5 to destination number 2) and whose branches
both exist, the created pull request has its proper milestone field
unset and instead carries the mapped milestone number in its assignee
field — `migrate_merge_requests` passes the milestone to
`add_to_assignees` (line 412) and never sets the milestone field. -/
theorem migrate_merge_request_milestone_misassigned :
    ((migrate_merge_request_step (fun mid => if mid = 5 then some 2 else none)
        ["feature-x", "main"] mr_with_milestone).prs.map GHPullRequest.milestone = [none]) ∧
    ((migrate_merge_request_step (fun mid => if mid = 5 then some 2 else none)
        ["feature-x", "main"] mr_with_milestone).prs.map GHPullRequest.assignees = [[2]]) := by
  decide

/-- A list in which no element satisfies the boolean predicate filters
to the empty list. -/
theorem filter_eq_nil_of_all_false {α : Type} (p : α → Bool) :
    ∀ l : List α, (∀ a ∈ l, p a = false) → l.filter p = [] := by
  intro l h
  induction l with
  | nil => rfl
  | cons a t ih =>
    have ha := h a (List.mem_cons_self a t)
    simp [List.filter_cons, ha, ih (fun c hc => h c (List.mem_cons_of_mem a hc))]

/-- A list in which every element satisfies the boolean predicate
filters to itself. -/
theorem filter_eq_self_of_all_true {α : Type} (p : α → Bool) :
    ∀ l : List α, (∀ a ∈ l, p a = true) → l.filter p = l := by
  intro l h
  induction l with
  | nil => rfl
  | cons a t ih =>
    have ha := h a (List.mem_cons_self a t)
    simp [List.filter_cons, ha, ih (fun c hc => h c (List.mem_cons_of_mem a hc))]

/-- Every iteration of the merge-request loop fetches the destination
branch list exactly once: both the skip path and the creation path of
`migrate_merge_request_step` contain exactly one `getBranches` call. -/
theorem migrate_merge_request_step_getBranches (milestone_mapping : Nat → Option Nat)
    (branches : List String) (mr : SrcMergeRequest) :
    ((migrate_merge_request_step milestone_mapping branches mr).calls.filter
      (fun c => decide (c = GitHubCall.getBranches))).length = 1 := by
  by_cases hg : mr.source_branch ∉ branches ∨ mr.target_branch ∉ branches
  · simp [migrate_merge_request_step, hg, List.filter_cons]
  · have htail : ∀ c ∈ ((if mr.labels ≠ [] then [GitHubCall.addLabels] else []) ++
        ((match (match mr.milestone_id with
            | some mid =>
              match milestone_mapping mid with
              | some n => if n ≠ 0 then some n else none
              | none => none
            | none => none) with
          | some _ => [GitHubCall.addAssignees]
          | none => []) ++
          ((mr.notes.filter (fun s => s.trim ≠ "")).map (fun _ => GitHubCall.createComment) ++
            (if mr.state = "merged" ∨ mr.state = "closed" then [GitHubCall.editState] else [])))),
        (fun c => decide (c = GitHubCall.getBranches)) c = false := by
      intro c hc
      simp only [List.mem_append] at hc
      rcases hc with hc | hc | hc | hc
      · split at hc <;> simp_all
      · split at hc <;> simp_all
      · obtain ⟨s, hs, rfl⟩ := List.mem_map.mp hc
        simp
      · split at hc <;> simp_all
    simp only [migrate_merge_request_step, if_neg hg]
    simp only [List.append_assoc, List.filter_append, List.length_append,
      filter_eq_nil_of_all_false _ _ htail]
    rfl

/-- The `migrate_merge_requests` fold accumulates, in source order, the
pull requests, record-keeping issues and API calls of the per-request
iterations. -/
theorem migrate_merge_requests_fold (milestone_mapping : Nat → Option Nat)
    (branches : List String) :
    ∀ (mrs : List SrcMergeRequest) (acc : RequestMigrationOut),
      mrs.foldl (fun a mr => a.append (migrate_merge_request_step milestone_mapping branches mr)) acc
        = { prs := acc.prs ++
              (mrs.map fun mr => (migrate_merge_request_step milestone_mapping branches mr).prs).flatten
            issues := acc.issues ++
              (mrs.map fun mr => (migrate_merge_request_step milestone_mapping branches mr).issues).flatten
            calls := acc.calls ++
              (mrs.map fun mr => (migrate_merge_request_step milestone_mapping branches mr).calls).flatten } := by
  intro mrs
  induction mrs with
  | nil => intro acc; simp
  | cons mr rest ih =>
    intro acc
    rw [List.foldl_cons, ih]
    simp [RequestMigrationOut.append, List.append_assoc]

/-- The accumulated call trace of the merge-request loop contains one
`getBranches` call per processed merge request. -/
theorem getBranches_count_flatten (milestone_mapping : Nat → Option Nat)
    (branches : List String) :
    ∀ mrs : List SrcMergeRequest,
      (((mrs.map fun mr => (migrate_merge_request_step milestone_mapping branches mr).calls).flatten).filter
        (fun c => decide (c = GitHubCall.getBranches))).length = mrs.length := by
  intro mrs
  induction mrs with
  | nil => rfl
  | cons mr rest ih =>
    rw [List.map_cons, List.flatten_cons, List.filter_append, List.length_append,
      migrate_merge_request_step_getBranches, ih]
    simp only [List.length_cons]
    omega

/-- C3 counterexample: the claim says the destination branch list is
fetched once per repository, but `github_repo.get_branches()` sits
inside the per-request loop (line 363) — migrating a repository with
two merge requests fetches the branch list twice, not once. -/
theorem migrate_merge_requests_not_fetched_once :
    ((migrate_merge_requests cfg_all (fun _ => none) ["main"]
        [mr_missing_branch_a, mr_missing_branch_b]).calls.filter
      (fun c => decide (c = GitHubCall.getBranches))).length = 2 ∧
    ¬ ((migrate_merge_requests cfg_all (fun _ => none) ["main"]
        [mr_missing_branch_a, mr_missing_branch_b]).calls.filter
      (fun c => decide (c = GitHubCall.getBranches))).length = 1 := by
  decide

/-- C3 amended: for every source merge request whose source or target
branch is absent from the destination branch list, the request migrator
creates zero pull requests and exactly one closed record-keeping issue
(title and body documenting the skipped request's title, author,
original state, both branch names and the original URL) and continues
with the next request; the destination branch list is fetched anew for
each request (once per iteration of the loop), not once per
repository. -/
theorem migrate_merge_requests_branch_guard (cfg : MigrationConfig)
    (milestone_mapping : Nat → Option Nat) (branches : List String)
    (mrs : List SrcMergeRequest) (hcfg : cfg.migrate_merge_requests = true) :
    ((migrate_merge_requests cfg milestone_mapping branches mrs).calls.filter
        (fun c => decide (c = GitHubCall.getBranches))).length = mrs.length ∧
    (migrate_merge_requests cfg milestone_mapping branches mrs).prs
      = (mrs.map fun mr => (migrate_merge_request_step milestone_mapping branches mr).prs).flatten ∧
    (migrate_merge_requests cfg milestone_mapping branches mrs).issues
      = (mrs.map fun mr => (migrate_merge_request_step milestone_mapping branches mr).issues).flatten ∧
    ∀ mr ∈ mrs, (mr.source_branch ∉ branches ∨ mr.target_branch ∉ branches) →
      (migrate_merge_request_step milestone_mapping branches mr).prs = [] ∧
      (migrate_merge_request_step milestone_mapping branches mr).issues
        = [{ title := skip_issue_title mr, body := skip_issue_body mr, state := "closed" }] := by
  have hfold := migrate_merge_requests_fold milestone_mapping branches mrs
    { prs := [], issues := [], calls := [] }
  have hout : migrate_merge_requests cfg milestone_mapping branches mrs
      = { prs := (mrs.map fun mr => (migrate_merge_request_step milestone_mapping branches mr).prs).flatten
          issues := (mrs.map fun mr => (migrate_merge_request_step milestone_mapping branches mr).issues).flatten
          calls := (mrs.map fun mr => (migrate_merge_request_step milestone_mapping branches mr).calls).flatten } := by
    simpa [migrate_merge_requests, hcfg] using hfold
  refine ⟨?_, by simp [hout], by simp [hout], ?_⟩
  · rw [hout]
    exact getBranches_count_flatten milestone_mapping branches mrs
  · intro mr _ hmr
    constructor
    · simp [migrate_merge_request_step, hmr]
    · simp [migrate_merge_request_step, hmr]

/-- Witness for `migrate_merge_requests_branch_guard`: evaluated on a
concrete repository with branch list `["main"]` and one merge request
from the absent branch `feature-x`. -/
theorem migrate_merge_requests_branch_guard_witness :
    ((migrate_merge_requests cfg_all (fun _ => none) ["main"] [mr_missing_branch_a]).calls.filter
        (fun c => decide (c = GitHubCall.getBranches))).length = 1 ∧
    (migrate_merge_request_step (fun _ => none) ["main"] mr_missing_branch_a).prs = [] ∧
    (migrate_merge_request_step (fun _ => none) ["main"] mr_missing_branch_a).issues
      = [{ title := skip_issue_title mr_missing_branch_a
           body := skip_issue_body mr_missing_branch_a, state := "closed" }] := by
  have h := migrate_merge_requests_branch_guard cfg_all (fun _ => none) ["main"]
    [mr_missing_branch_a] rfl
  have hs := h.2.2.2 mr_missing_branch_a (by simp) (by decide)
  exact ⟨h.1, hs.1, hs.2⟩

/-- Auto-creating labels never touches the repository's issues. -/
theorem auto_create_labels_issues (gitlab_label_dict : List GitLabLabel) :
    ∀ (names : List String) (repo : GHIssuesRepo),
      (auto_create_labels gitlab_label_dict repo names).1.issues = repo.issues := by
  intro names
  induction names with
  | nil => intro repo; rfl
  | cons name rest ih =>
    intro repo
    by_cases h : name ∈ repo.labels.map GHLabel.name
    · simp [auto_create_labels, h, ih]
    · simp [auto_create_labels, h, ih]

/-- A skipped or failed iteration of the issue loop leaves the
repository's issues unchanged. -/
theorem migrate_issue_step_issues_of_not_migrated (milestone_mapping : Nat → Option Nat)
    (gitlab_label_dict : List GitLabLabel) (keys : List (String × String))
    (create_raises : Bool) (repo : GHIssuesRepo) (issue : SrcIssue)
    (h : (migrate_issue_step milestone_mapping gitlab_label_dict keys create_raises repo issue).2
      ≠ IssueOutcome.migrated) :
    (migrate_issue_step milestone_mapping gitlab_label_dict keys create_raises repo issue).1.issues
      = repo.issues := by
  by_cases hs : (issue.title, normalized_state issue.state) ∈ keys
  · simp [migrate_issue_step, hs, auto_create_labels_issues]
  · by_cases hr : create_raises
    · simp [migrate_issue_step, hs, hr, auto_create_labels_issues]
    · exact absurd (by simp [migrate_issue_step, hs, hr]) h

/-- An iteration that survives the dedup check with a non-raising
creation appends exactly one destination issue, whose dedup key is the
source issue's dedup key. -/
theorem migrate_issue_step_created (milestone_mapping : Nat → Option Nat)
    (gitlab_label_dict : List GitLabLabel) (keys : List (String × String))
    (repo : GHIssuesRepo) (issue : SrcIssue)
    (h : (issue.title, normalized_state issue.state) ∉ keys) :
    ∃ gh, (migrate_issue_step milestone_mapping gitlab_label_dict keys false repo issue).1.issues
        = repo.issues ++ [gh] ∧ (gh.title, gh.state) = issue_dedup_key issue := by
  refine ⟨created_issue milestone_mapping gitlab_label_dict repo issue, ?_, ?_⟩
  · simp [migrate_issue_step, h, auto_create_labels_issues]
  · by_cases hc : issue.state = "closed"
    · simp [created_issue, issue_dedup_key, normalized_state, hc]
    · simp [created_issue, issue_dedup_key, normalized_state, hc]

/-- Every iteration of the issue loop only appends destination
issues. -/
theorem migrate_issue_step_issues_append (milestone_mapping : Nat → Option Nat)
    (gitlab_label_dict : List GitLabLabel) (keys : List (String × String))
    (create_raises : Bool) (repo : GHIssuesRepo) (issue : SrcIssue) :
    ∃ t, (migrate_issue_step milestone_mapping gitlab_label_dict keys create_raises repo issue).1.issues
      = repo.issues ++ t := by
  by_cases hs : (issue.title, normalized_state issue.state) ∈ keys
  · exact ⟨[], by simp [migrate_issue_step, hs, auto_create_labels_issues]⟩
  · cases create_raises with
    | true => exact ⟨[], by simp [migrate_issue_step, hs, auto_create_labels_issues]⟩
    | false =>
      obtain ⟨gh, hgh, _⟩ := migrate_issue_step_created milestone_mapping gitlab_label_dict keys repo issue hs
      exact ⟨[gh], hgh⟩

/-- The whole issue loop only appends destination issues. -/
theorem migrate_issues_loop_issues_append (milestone_mapping : Nat → Option Nat)
    (gitlab_label_dict : List GitLabLabel) (keys : List (String × String))
    (create_raises : Nat → Bool) :
    ∀ (src : List SrcIssue) (idx : Nat) (repo : GHIssuesRepo),
      ∃ t, (migrate_issues_loop milestone_mapping gitlab_label_dict keys create_raises idx repo src).1.issues
        = repo.issues ++ t := by
  intro src
  induction src with
  | nil => intro idx repo; exact ⟨[], by simp [migrate_issues_loop]⟩
  | cons issue rest ih =>
    intro idx repo
    obtain ⟨t1, h1⟩ := migrate_issue_step_issues_append milestone_mapping gitlab_label_dict keys
      (create_raises idx) repo issue
    obtain ⟨t2, h2⟩ := ih (idx + 1)
      (migrate_issue_step milestone_mapping gitlab_label_dict keys (create_raises idx) repo issue).1
    exact ⟨t1 ++ t2, by simp [migrate_issues_loop, h2, h1, List.append_assoc]⟩

/-- The outcome of an iteration depends only on the fixed pre-pass
keys, the oracle bit and the issue itself, not on the accumulated
repository state. -/
theorem migrate_issue_step_outcome (milestone_mapping : Nat → Option Nat)
    (gitlab_label_dict : List GitLabLabel) (keys : List (String × String))
    (create_raises : Bool) (repo : GHIssuesRepo) (issue : SrcIssue) :
    (migrate_issue_step milestone_mapping gitlab_label_dict keys create_raises repo issue).2
      = outcome_of keys create_raises issue := by
  by_cases hs : (issue.title, normalized_state issue.state) ∈ keys
  · simp [migrate_issue_step, outcome_of, issue_dedup_key, hs]
  · by_cases hr : create_raises
    · simp [migrate_issue_step, outcome_of, issue_dedup_key, hs, hr]
    · simp [migrate_issue_step, outcome_of, issue_dedup_key, hs, hr]

/-- The outcome list of the issue loop is `outcomes_of`. -/
theorem migrate_issues_loop_outcomes (milestone_mapping : Nat → Option Nat)
    (gitlab_label_dict : List GitLabLabel) (keys : List (String × String))
    (create_raises : Nat → Bool) :
    ∀ (src : List SrcIssue) (idx : Nat) (repo : GHIssuesRepo),
      (migrate_issues_loop milestone_mapping gitlab_label_dict keys create_raises idx repo src).2
        = outcomes_of keys create_raises idx src := by
  intro src
  induction src with
  | nil => intro idx repo; rfl
  | cons issue rest ih =>
    intro idx repo
    simp [migrate_issues_loop, outcomes_of, migrate_issue_step_outcome, ih]

/-- Splitting `outcomes_of` around a list append. -/
theorem outcomes_of_append (keys : List (String × String)) (create_raises : Nat → Bool) :
    ∀ (xs ys : List SrcIssue) (idx : Nat),
      outcomes_of keys create_raises idx (xs ++ ys)
        = outcomes_of keys create_raises idx xs ++ outcomes_of keys create_raises (idx + xs.length) ys := by
  intro xs
  induction xs with
  | nil => intro ys idx; simp [outcomes_of]
  | cons x rest ih =>
    intro ys idx
    have harith : idx + 1 + rest.length = idx + (rest.length + 1) := by omega
    simp [outcomes_of, ih ys (idx + 1), List.length_cons, harith]

/-- The loop emits one outcome per source issue, in order, keyed by the
issue's iid. -/
theorem outcomes_of_map_fst (keys : List (String × String)) (create_raises : Nat → Bool) :
    ∀ (src : List SrcIssue) (idx : Nat),
      (outcomes_of keys create_raises idx src).map Prod.fst = src.map SrcIssue.iid := by
  intro src
  induction src with
  | nil => intro idx; rfl
  | cons issue rest ih => intro idx; simp [outcomes_of, ih]

/-- The number of outcomes equals the number of source issues. -/
theorem outcomes_of_length (keys : List (String × String)) (create_raises : Nat → Bool) :
    ∀ (src : List SrcIssue) (idx : Nat),
      (outcomes_of keys create_raises idx src).length = src.length := by
  intro src
  induction src with
  | nil => intro idx; rfl
  | cons issue rest ih => intro idx; simp [outcomes_of, ih]

/-- On a stretch of iterations whose creation oracle never raises, no
outcome is `failed`. -/
theorem outcomes_of_not_failed (keys : List (String × String)) (create_raises : Nat → Bool) :
    ∀ (src : List SrcIssue) (idx : Nat),
      (∀ j, j < src.length → create_raises (idx + j) = false) →
      ∀ p ∈ outcomes_of keys create_raises idx src, p.2 ≠ IssueOutcome.failed := by
  intro src
  induction src with
  | nil => intro idx _ p hp; simp [outcomes_of] at hp
  | cons issue rest ih =>
    intro idx h p hp
    simp only [outcomes_of, List.mem_cons] at hp
    rcases hp with hp | hp
    · have h0 : create_raises idx = false := by simpa using h 0 (by simp)
      subst hp
      by_cases hs : issue_dedup_key issue ∈ keys
      · simp [outcome_of, hs]
      · simp [outcome_of, hs, h0]
    · exact ih (idx + 1)
        (fun j hj => by
          have := h (j + 1) (by simpa using Nat.succ_lt_succ hj)
          simpa [Nat.add_assoc, Nat.add_comm 1 j] using this)
        p hp

/-- After a run of the issue loop with a never-raising oracle, the
dedup key of every processed source issue is present among the
destination issues' keys: a skipped issue's key was already there, a
migrated issue contributed it. -/
theorem migrate_issues_loop_key_coverage (milestone_mapping : Nat → Option Nat)
    (gitlab_label_dict : List GitLabLabel) (keys : List (String × String)) :
    ∀ (src : List SrcIssue) (idx : Nat) (repo : GHIssuesRepo),
      keys ⊆ keys_of repo.issues →
      ∀ I ∈ src, issue_dedup_key I ∈
        keys_of (migrate_issues_loop milestone_mapping gitlab_label_dict keys
          (fun _ => false) idx repo src).1.issues := by
  intro src
  induction src with
  | nil => intro idx repo _ I hI; simp at hI
  | cons J rest ih =>
    intro idx repo hkeys I hI
    have hstep := migrate_issue_step_issues_append milestone_mapping gitlab_label_dict keys
      false repo J
    obtain ⟨t1, ht1⟩ := hstep
    have hloop := migrate_issues_loop_issues_append milestone_mapping gitlab_label_dict keys
      (fun _ => false) rest (idx + 1)
      (migrate_issue_step milestone_mapping gitlab_label_dict keys false repo J).1
    obtain ⟨t2, ht2⟩ := hloop
    have hfinal : (migrate_issues_loop milestone_mapping gitlab_label_dict keys
        (fun _ => false) idx repo (J :: rest)).1.issues
        = (migrate_issue_step milestone_mapping gitlab_label_dict keys false repo J).1.issues ++ t2 := by
      simp [migrate_issues_loop, ht2]
    rcases List.mem_cons.mp hI with rfl | hI
    · by_cases hskip : (I.title, normalized_state I.state) ∈ keys
      · have h1 : issue_dedup_key I ∈ keys_of repo.issues := hkeys hskip
        rw [hfinal, ht1]
        simp only [keys_of, List.map_append, List.mem_append]
        left; left
        exact h1
      · obtain ⟨gh, hgh, hkey⟩ := migrate_issue_step_created milestone_mapping gitlab_label_dict
          keys repo I hskip
        rw [hfinal, hgh]
        simp only [keys_of, List.map_append, List.mem_append]
        left; right
        simp [hkey]
    · have hsub : keys ⊆ keys_of (migrate_issue_step milestone_mapping gitlab_label_dict keys
          false repo J).1.issues := by
        rw [ht1]
        intro k hk
        simp only [keys_of, List.map_append, List.mem_append]
        left
        exact hkeys hk
      have := ih (idx + 1)
        (migrate_issue_step milestone_mapping gitlab_label_dict keys false repo J).1 hsub I hI
      simpa [migrate_issues_loop] using this

/-- When every source issue's dedup key is among the fixed pre-pass
keys, the loop creates nothing: the destination issues are unchanged
(regardless of the creation oracle, since the dedup check precedes the
creation attempt). -/
theorem migrate_issues_loop_all_skipped (milestone_mapping : Nat → Option Nat)
    (gitlab_label_dict : List GitLabLabel) (keys : List (String × String))
    (create_raises : Nat → Bool) :
    ∀ (src : List SrcIssue) (idx : Nat) (repo : GHIssuesRepo),
      (∀ I ∈ src, issue_dedup_key I ∈ keys) →
      (migrate_issues_loop milestone_mapping gitlab_label_dict keys create_raises idx repo src).1.issues
        = repo.issues := by
  intro src
  induction src with
  | nil => intro idx repo _; rfl
  | cons J rest ih =>
    intro idx repo hall
    have hJ : (J.title, normalized_state J.state) ∈ keys := hall J (List.mem_cons_self J rest)
    have hstep : (migrate_issue_step milestone_mapping gitlab_label_dict keys
        (create_raises idx) repo J).1.issues = repo.issues := by
      simp [migrate_issue_step, hJ, auto_create_labels_issues]
    have := ih (idx + 1)
      (migrate_issue_step milestone_mapping gitlab_label_dict keys (create_raises idx) repo J).1
      (fun I hI => hall I (List.mem_cons_of_mem J hI))
    simpa [migrate_issues_loop, hstep] using this

/-- C1: running issue migration a second time against the same
source/destination pair creates no duplicate destination issue.  After
a first run, the dedup key of every source issue is present at the
destination, so the second run skips every creation: the destination
issue list is unchanged, and in particular the count of destination
issues matching any dedup key does not increase on the second run. -/
theorem migrate_issues_idempotent (cfg : MigrationConfig)
    (milestone_mapping : Nat → Option Nat) (gitlab_label_dict : List GitLabLabel)
    (src : List SrcIssue) (repo : GHIssuesRepo)
    (hcfg : cfg.migrate_issues = true) :
    ((migrate_issues cfg milestone_mapping gitlab_label_dict (fun _ => false) src
        (migrate_issues cfg milestone_mapping gitlab_label_dict (fun _ => false) src repo).1).1).issues
      = ((migrate_issues cfg milestone_mapping gitlab_label_dict (fun _ => false) src repo).1).issues ∧
    ∀ k, count_key ((migrate_issues cfg milestone_mapping gitlab_label_dict (fun _ => false) src
        (migrate_issues cfg milestone_mapping gitlab_label_dict (fun _ => false) src repo).1).1).issues k
      ≤ count_key ((migrate_issues cfg milestone_mapping gitlab_label_dict (fun _ => false) src repo).1).issues k := by
  have hcover : ∀ I ∈ src, issue_dedup_key I ∈
      keys_of ((migrate_issues cfg milestone_mapping gitlab_label_dict (fun _ => false) src repo).1).issues := by
    intro I hI
    have := migrate_issues_loop_key_coverage milestone_mapping gitlab_label_dict
      (existing_issue_keys repo) src 0 repo (by simp [existing_issue_keys]) I hI
    simpa [migrate_issues, hcfg] using this
  have heq : ((migrate_issues cfg milestone_mapping gitlab_label_dict (fun _ => false) src
      (migrate_issues cfg milestone_mapping gitlab_label_dict (fun _ => false) src repo).1).1).issues
      = ((migrate_issues cfg milestone_mapping gitlab_label_dict (fun _ => false) src repo).1).issues := by
    have := migrate_issues_loop_all_skipped milestone_mapping gitlab_label_dict
      (existing_issue_keys (migrate_issues cfg milestone_mapping gitlab_label_dict (fun _ => false) src repo).1)
      (fun _ => false) src 0
      (migrate_issues cfg milestone_mapping gitlab_label_dict (fun _ => false) src repo).1
      (fun I hI => by simpa [existing_issue_keys] using hcover I hI)
    simpa [migrate_issues, hcfg] using this
  exact ⟨heq, fun k => by rw [heq]⟩

/-- Witness for `migrate_issues_idempotent`: evaluated with one
concrete issue against an empty destination repository. -/
theorem migrate_issues_idempotent_witness :
    ((migrate_issues cfg_all (fun _ => none) [] (fun _ => false) [issue_a]
        (migrate_issues cfg_all (fun _ => none) [] (fun _ => false) [issue_a] empty_gh_repo).1).1).issues
      = ((migrate_issues cfg_all (fun _ => none) [] (fun _ => false) [issue_a] empty_gh_repo).1).issues :=
  (migrate_issues_idempotent cfg_all (fun _ => none) [] [issue_a] empty_gh_repo rfl).1

/-- Key counting distributes over list append. -/
theorem count_key_append (a b : List GHIssue) (k : String × String) :
    count_key (a ++ b) k = count_key a k + count_key b k := by
  simp [count_key, List.filter_append]

/-- A key absent from a destination issue list is counted zero times. -/
theorem count_key_eq_zero (issues : List GHIssue) (k : String × String)
    (h : k ∉ keys_of issues) : count_key issues k = 0 := by
  have hnil : issues.filter (fun i => decide ((i.title, i.state) = k)) = [] := by
    apply filter_eq_nil_of_all_false
    intro i hi
    simp only [decide_eq_false_iff_not]
    intro heq
    exact h (by simpa [keys_of, heq] using List.mem_map_of_mem (fun ei => (ei.title, ei.state)) hi)
  simp [count_key, hnil]

/-- With a never-raising oracle and a key `k` absent from the fixed
pre-pass keys, the loop creates one destination issue with key `k` for
every source issue with dedup key `k` — the key set is never extended
during the run, so later same-key issues are not skipped. -/
theorem migrate_issues_loop_count (milestone_mapping : Nat → Option Nat)
    (gitlab_label_dict : List GitLabLabel) (keys : List (String × String))
    (k : String × String) (hk : k ∉ keys) :
    ∀ (src : List SrcIssue) (idx : Nat) (repo : GHIssuesRepo),
      count_key (migrate_issues_loop milestone_mapping gitlab_label_dict keys
          (fun _ => false) idx repo src).1.issues k
        = count_key repo.issues k + (src.filter (fun I => decide (issue_dedup_key I = k))).length := by
  intro src
  induction src with
  | nil => intro idx repo; simp [migrate_issues_loop]
  | cons J rest ih =>
    intro idx repo
    by_cases hskip : (J.title, normalized_state J.state) ∈ keys
    · have hne : ¬ (issue_dedup_key J = k) := by
        intro heq
        exact hk (by simpa [issue_dedup_key] using heq ▸ hskip)
      have hstep : (migrate_issue_step milestone_mapping gitlab_label_dict keys
          false repo J).1.issues = repo.issues := by
        simp [migrate_issue_step, hskip, auto_create_labels_issues]
      have := ih (idx + 1)
        (migrate_issue_step milestone_mapping gitlab_label_dict keys false repo J).1
      simp only [migrate_issues_loop] at this ⊢
      rw [this, hstep, List.filter_cons]
      simp [hne]
    · obtain ⟨gh, hgh, hkey⟩ := migrate_issue_step_created milestone_mapping gitlab_label_dict
        keys repo J hskip
      have := ih (idx + 1)
        (migrate_issue_step milestone_mapping gitlab_label_dict keys false repo J).1
      simp only [migrate_issues_loop] at this ⊢
      rw [this, hgh, count_key_append, List.filter_cons]
      by_cases hJk : issue_dedup_key J = k
      · simp [count_key, hkey, hJk]
        omega
      · simp [count_key, hkey, hJk]

/-- C10: the dedup key set of `migrate_issues` is computed once from the
destination's pre-existing issues and never extended during the run —
for a key `k` not among the pre-existing keys, the run creates exactly
one destination issue per source issue with dedup key `k`; in
particular two distinct source issues sharing a title and normalized
state in the same run each create a destination issue. -/
theorem migrate_issues_dedup_keys_fixed (cfg : MigrationConfig)
    (milestone_mapping : Nat → Option Nat) (gitlab_label_dict : List GitLabLabel)
    (src : List SrcIssue) (repo : GHIssuesRepo) (k : String × String)
    (hcfg : cfg.migrate_issues = true)
    (hk : k ∉ existing_issue_keys repo) :
    count_key ((migrate_issues cfg milestone_mapping gitlab_label_dict (fun _ => false) src repo).1).issues k
      = (src.filter (fun I => decide (issue_dedup_key I = k))).length ∧
    ∀ I J : SrcIssue, issue_dedup_key I = k → issue_dedup_key J = k →
      count_key ((migrate_issues cfg milestone_mapping gitlab_label_dict (fun _ => false) [I, J] repo).1).issues k = 2 := by
  have hmain : ∀ src' : List SrcIssue,
      count_key ((migrate_issues cfg milestone_mapping gitlab_label_dict (fun _ => false) src' repo).1).issues k
        = (src'.filter (fun I => decide (issue_dedup_key I = k))).length := by
    intro src'
    have := migrate_issues_loop_count milestone_mapping gitlab_label_dict
      (existing_issue_keys repo) k hk src' 0 repo
    rw [count_key_eq_zero repo.issues k (by simpa [existing_issue_keys] using hk)] at this
    simpa [migrate_issues, hcfg] using this
  refine ⟨hmain src, fun I J hI hJ => ?_⟩
  rw [hmain [I, J]]
  simp [List.filter_cons, hI, hJ]

/-- Witness for `migrate_issues_dedup_keys_fixed`: two concrete source
issues with the same title and state, migrated into an empty
destination repository, both get created. -/
theorem migrate_issues_dedup_keys_fixed_witness :
    count_key ((migrate_issues cfg_all (fun _ => none) [] (fun _ => false) [issue_a, issue_b]
        empty_gh_repo).1).issues ("Crash on save", "open") = 2 :=
  (migrate_issues_dedup_keys_fixed cfg_all (fun _ => none) [] [issue_a, issue_b] empty_gh_repo
    ("Crash on save", "open") rfl (by decide)).2 issue_a issue_b (by decide) (by decide)

/-- C8: one issue raising during creation does not abort the batch —
with the creation of the issue at position `pre.length` raising and
every other creation succeeding, every issue of the batch still
produces an outcome in order, exactly one outcome is `failed`, and the
number of issues processed without failure equals the total number of
issues minus the one that failed. -/
theorem migrate_issues_failure_isolation (cfg : MigrationConfig)
    (milestone_mapping : Nat → Option Nat) (gitlab_label_dict : List GitLabLabel)
    (repo : GHIssuesRepo) (pre post : List SrcIssue) (I : SrcIssue)
    (hcfg : cfg.migrate_issues = true)
    (hI : (I.title, normalized_state I.state) ∉ existing_issue_keys repo) :
    ((migrate_issues cfg milestone_mapping gitlab_label_dict
        (fun j => decide (j = pre.length)) (pre ++ I :: post) repo).2).map Prod.fst
        = (pre ++ I :: post).map SrcIssue.iid ∧
    (((migrate_issues cfg milestone_mapping gitlab_label_dict
        (fun j => decide (j = pre.length)) (pre ++ I :: post) repo).2).filter
        (fun p => decide (p.2 = IssueOutcome.failed))).length = 1 ∧
    (((migrate_issues cfg milestone_mapping gitlab_label_dict
        (fun j => decide (j = pre.length)) (pre ++ I :: post) repo).2).filter
        (fun p => decide (p.2 ≠ IssueOutcome.failed))).length = pre.length + post.length := by
  have houts : (migrate_issues cfg milestone_mapping gitlab_label_dict
      (fun j => decide (j = pre.length)) (pre ++ I :: post) repo).2
      = outcomes_of (existing_issue_keys repo) (fun j => decide (j = pre.length)) 0 (pre ++ I :: post) := by
    simp [migrate_issues, hcfg, migrate_issues_loop_outcomes]
  have hsplit : outcomes_of (existing_issue_keys repo) (fun j => decide (j = pre.length)) 0 (pre ++ I :: post)
      = outcomes_of (existing_issue_keys repo) (fun j => decide (j = pre.length)) 0 pre ++
        ((I.iid, outcome_of (existing_issue_keys repo) (decide (pre.length = pre.length)) I) ::
          outcomes_of (existing_issue_keys repo) (fun j => decide (j = pre.length)) (pre.length + 1) post) := by
    rw [outcomes_of_append]
    simp [outcomes_of]
  have hfailI : outcome_of (existing_issue_keys repo) true I = IssueOutcome.failed := by
    simp [outcome_of, issue_dedup_key, hI]
  have hpre : ∀ p ∈ outcomes_of (existing_issue_keys repo)
      (fun j => decide (j = pre.length)) 0 pre, p.2 ≠ IssueOutcome.failed := by
    apply outcomes_of_not_failed
    intro j hj
    simp only [decide_eq_false_iff_not]
    omega
  have hpost : ∀ p ∈ outcomes_of (existing_issue_keys repo)
      (fun j => decide (j = pre.length)) (pre.length + 1) post, p.2 ≠ IssueOutcome.failed := by
    apply outcomes_of_not_failed
    intro j hj
    simp only [decide_eq_false_iff_not]
    omega
  refine ⟨?_, ?_, ?_⟩
  · rw [houts, outcomes_of_map_fst]
  · rw [houts, hsplit, List.filter_append, List.filter_cons]
    rw [filter_eq_nil_of_all_false _ _
      (fun p hp => by simpa [decide_eq_false_iff_not] using hpre p hp)]
    rw [filter_eq_nil_of_all_false _ _
      (fun p hp => by simpa [decide_eq_false_iff_not] using hpost p hp)]
    simp [hfailI]
  · rw [houts, hsplit, List.filter_append, List.filter_cons]
    rw [filter_eq_self_of_all_true _ _
      (fun p hp => by simpa [decide_eq_true_eq] using hpre p hp)]
    rw [filter_eq_self_of_all_true _ _
      (fun p hp => by simpa [decide_eq_true_eq] using hpost p hp)]
    simp [hfailI, outcomes_of_length]

/-- Witness for `migrate_issues_failure_isolation`: a concrete
two-issue batch whose first creation raises still processes both issues
and completes the second. -/
theorem migrate_issues_failure_isolation_witness :
    ((migrate_issues cfg_all (fun _ => none) [] (fun j => decide (j = (0 : Nat)))
        [issue_a, issue_b] empty_gh_repo).2).map Prod.fst = [11, 12] ∧
    (((migrate_issues cfg_all (fun _ => none) [] (fun j => decide (j = (0 : Nat)))
        [issue_a, issue_b] empty_gh_repo).2).filter
        (fun p => decide (p.2 ≠ IssueOutcome.failed))).length = 1 := by
  have h := migrate_issues_failure_isolation cfg_all (fun _ => none) [] empty_gh_repo
    [] [issue_b] issue_a rfl (by decide)
  exact ⟨h.1, h.2.2⟩

end Gitlab2Github
